import Mathlib

/-!
Verification development for the resilient extraction-and-retry client of
the IPLSMAT repository (src/services/geminiService.ts and the prompt-variant
copies under src/unnamed/).

The development shallowly embeds:
  * the response normalizer `cleanAndParseJSON` (direct parse, fenced-block
    extraction via the regex on backtick fences, brace-span extraction), and
  * the retrying call executor `fetchLatestPlayerStats` (API-key presence
    check, quota classification `isQuotaError`, bounded exponential backoff).

`JSON.parse` is an external JavaScript builtin, not code of this repository;
it is modelled below by `jsParse`, a fuel-indexed recursive-descent parser
for the JSON grammar (objects, arrays, strings with escapes, numbers as
exact rationals, literals), validating that the whole input is one value
surrounded only by JSON whitespace.  All general theorems take the relevant
`jsParse` results as hypotheses, so their validity does not depend on corner
cases of this model; concrete witnesses evaluate it on small inputs.
-/

/-- JSON values as produced by `JSON.parse`.  Numbers are kept as exact
rationals; object fields keep their textual order (duplicate keys are kept,
and field lookup takes the last occurrence, as in JavaScript). -/
inductive Json where
  | null
  | bool (b : Bool)
  | num (q : Rat)
  | str (s : String)
  | arr (elems : List Json)
  | obj (fields : List (String × Json))

/-- JSON whitespace (the only characters `JSON.parse` skips between tokens). -/
def isJsonWs (c : Char) : Bool :=
  c = ' ' || c = '\t' || c = '\n' || c = '\r'

/-- Skip JSON whitespace. -/
def skipJsonWs (l : List Char) : List Char := l.dropWhile isJsonWs

/-- Numeric value of a decimal digit character. -/
def digitVal (c : Char) : Nat := c.toNat - '0'.toNat

/-- Natural number denoted by a list of decimal digit characters. -/
def natOfDigits (l : List Char) : Nat :=
  l.foldl (fun a c => a * 10 + digitVal c) 0

/-- Parse one JSON number token (sign, integer part, optional fraction,
optional exponent) as an exact rational.  An ill-formed fraction or exponent
suffix is simply not consumed; the leftover characters then make the
enclosing parse fail, matching `JSON.parse` rejecting the input. -/
def parseNumber (l : List Char) : Option (Rat × List Char) :=
  let signed :=
    match l with
    | '-' :: r => (true, r)
    | _ => (false, l)
  let neg := signed.1
  let l1 := signed.2
  let intPart : Option (Nat × List Char) :=
    match l1 with
    | '0' :: r => some (0, r)
    | c :: r =>
      if c.isDigit then
        some (natOfDigits (c :: r.takeWhile Char.isDigit), r.dropWhile Char.isDigit)
      else none
    | [] => none
  match intPart with
  | none => none
  | some (ip, l2) =>
    let frac :=
      match l2 with
      | '.' :: r =>
        let ds := r.takeWhile Char.isDigit
        if ds = [] then (([] : List Char), l2) else (ds, r.dropWhile Char.isDigit)
      | _ => (([] : List Char), l2)
    let fds := frac.1
    let l3 := frac.2
    let expo : Option ((Bool × Nat) × List Char) :=
      match l3 with
      | 'e' :: r =>
        let sgn :=
          match r with
          | '+' :: r2 => (false, r2)
          | '-' :: r2 => (true, r2)
          | _ => (false, r)
        let ds := sgn.2.takeWhile Char.isDigit
        if ds = [] then none
        else some ((sgn.1, natOfDigits ds), sgn.2.dropWhile Char.isDigit)
      | 'E' :: r =>
        let sgn :=
          match r with
          | '+' :: r2 => (false, r2)
          | '-' :: r2 => (true, r2)
          | _ => (false, r)
        let ds := sgn.2.takeWhile Char.isDigit
        if ds = [] then none
        else some ((sgn.1, natOfDigits ds), sgn.2.dropWhile Char.isDigit)
      | _ => none
    let num0 : Nat := ip * Nat.pow 10 fds.length + natOfDigits fds
    let den0 : Nat := Nat.pow 10 fds.length
    match expo with
    | some ((eneg, e), l4) =>
      let n : Nat := if eneg then num0 else num0 * Nat.pow 10 e
      let d : Nat := if eneg then den0 * Nat.pow 10 e else den0
      some (mkRat (if neg then -(n : Int) else (n : Int)) d, l4)
    | none =>
      some (mkRat (if neg then -(num0 : Int) else (num0 : Int)) den0, l3)

/-- Value of a hexadecimal digit character, if any. -/
def hexVal (c : Char) : Option Nat :=
  if c.isDigit then some (c.toNat - '0'.toNat)
  else if 'a' ≤ c ∧ c ≤ 'f' then some (c.toNat - 'a'.toNat + 10)
  else if 'A' ≤ c ∧ c ≤ 'F' then some (c.toNat - 'A'.toNat + 10)
  else none

/-- Parse the body of a JSON string after the opening quote: returns the
decoded characters and the remainder after the closing quote.  Handles the
JSON escapes and rejects raw control characters, as `JSON.parse` does. -/
def parseStringBody : List Char → Option (List Char × List Char)
  | [] => none
  | '"' :: rest => some ([], rest)
  | '\\' :: '"' :: rest => (parseStringBody rest).map (fun p => ('"' :: p.1, p.2))
  | '\\' :: '\\' :: rest => (parseStringBody rest).map (fun p => ('\\' :: p.1, p.2))
  | '\\' :: '/' :: rest => (parseStringBody rest).map (fun p => ('/' :: p.1, p.2))
  | '\\' :: 'b' :: rest => (parseStringBody rest).map (fun p => (Char.ofNat 8 :: p.1, p.2))
  | '\\' :: 'f' :: rest => (parseStringBody rest).map (fun p => (Char.ofNat 12 :: p.1, p.2))
  | '\\' :: 'n' :: rest => (parseStringBody rest).map (fun p => ('\n' :: p.1, p.2))
  | '\\' :: 'r' :: rest => (parseStringBody rest).map (fun p => (Char.ofNat 13 :: p.1, p.2))
  | '\\' :: 't' :: rest => (parseStringBody rest).map (fun p => ('\t' :: p.1, p.2))
  | '\\' :: 'u' :: a :: b :: c :: d :: rest =>
    match hexVal a, hexVal b, hexVal c, hexVal d with
    | some ha, some hb, some hc, some hd =>
      (parseStringBody rest).map
        (fun p => (Char.ofNat (((ha * 16 + hb) * 16 + hc) * 16 + hd) :: p.1, p.2))
    | _, _, _, _ => none
  | '\\' :: _ => none
  | c :: rest =>
    if c.toNat < 32 then none
    else (parseStringBody rest).map (fun p => (c :: p.1, p.2))

/-- Fuel-indexed JSON value parser.  After an element (resp. member) and a
comma, the remaining elements of an array (resp. object) are parsed by
re-entering the parser on a reconstructed opening bracket; a lookahead guard
rejects the trailing-comma forms that this reconstruction would otherwise
accept, keeping the accepted language exactly the JSON grammar. -/
def parseCore : Nat → List Char → Option (Json × List Char)
  | 0, _ => none
  | Nat.succ fuel, input =>
    let l := skipJsonWs input
    match l with
    | 'n' :: 'u' :: 'l' :: 'l' :: rest => some (Json.null, rest)
    | 't' :: 'r' :: 'u' :: 'e' :: rest => some (Json.bool true, rest)
    | 'f' :: 'a' :: 'l' :: 's' :: 'e' :: rest => some (Json.bool false, rest)
    | '"' :: rest =>
      (parseStringBody rest).map (fun p => (Json.str (String.mk p.1), p.2))
    | '[' :: rest =>
      (match skipJsonWs rest with
       | ']' :: rest2 => some (Json.arr [], rest2)
       | _ =>
         match parseCore fuel rest with
         | none => none
         | some (v, rest2) =>
           match skipJsonWs rest2 with
           | ']' :: rest3 => some (Json.arr [v], rest3)
           | ',' :: rest3 =>
             (match skipJsonWs rest3 with
              | ']' :: _ => none
              | _ =>
                match parseCore fuel ('[' :: rest3) with
                | some (Json.arr tail, rest4) => some (Json.arr (v :: tail), rest4)
                | _ => none)
           | _ => none)
    | '\x7b' :: rest =>
      (match skipJsonWs rest with
       | '\x7d' :: rest2 => some (Json.obj [], rest2)
       | '"' :: rest2 =>
         (match parseStringBody rest2 with
          | none => none
          | some (key, rest3) =>
            match skipJsonWs rest3 with
            | ':' :: rest4 =>
              (match parseCore fuel rest4 with
               | none => none
               | some (v, rest5) =>
                 match skipJsonWs rest5 with
                 | '\x7d' :: rest6 => some (Json.obj [(String.mk key, v)], rest6)
                 | ',' :: rest6 =>
                   (match skipJsonWs rest6 with
                    | '\x7d' :: _ => none
                    | _ =>
                      match parseCore fuel ('\x7b' :: rest6) with
                      | some (Json.obj tailFields, rest7) =>
                        some (Json.obj ((String.mk key, v) :: tailFields), rest7)
                      | _ => none)
                 | _ => none)
            | _ => none)
       | _ => none)
    | _ => (parseNumber l).map (fun p => (Json.num p.1, p.2))

/-- Model of the JavaScript builtin `JSON.parse`: parse one JSON value and
require that only JSON whitespace follows it.  The fuel `2 * length + 4`
dominates the recursion depth (each recursive step consumes at least one
input character, spending at most two units of fuel per character). -/
def jsParse (s : String) : Option Json :=
  match parseCore (2 * s.data.length + 4) s.data with
  | some (v, rest) => if skipJsonWs rest = [] then some v else none
  | none => none

/-!
### The fenced-block regex

`cleanAndParseJSON` extracts fenced content with the JavaScript regex
match on a triple-backtick fence, optionally tagged `json`, non-greedy:
the match starts at the first triple backtick that is followed (anywhere
later) by a closing triple backtick, the optional `json` tag and the
following whitespace run are consumed greedily, the lazily captured group
ends at the first closing fence, and the whitespace run immediately before
that closing fence is absorbed by the final greedy whitespace star.

A backtick is neither a whitespace character nor part of the `json` tag, so
greedy consumption of the tag and of whitespace never hides a fence, and no
backtracking case changes the captured group.  Moreover if the first triple
backtick of the text has no later closing fence then the whole regex fails:
any later match attempt would need two disjoint triple-backtick runs inside
the remainder, which then cannot exist.  `fencedMatchAux` below therefore
commits to the first triple backtick it meets.
-/

/-- The character class matched by the regex whitespace escape in
JavaScript (ASCII whitespace plus the Unicode space separators, the line
and paragraph separators, and the byte-order mark). -/
def isRegexWs (c : Char) : Bool :=
  let n := c.toNat
  (9 ≤ n && n ≤ 13) || n = 32 || n = 160 || n = 5760 || (8192 ≤ n && n ≤ 8202) ||
    n = 8232 || n = 8233 || n = 8239 || n = 8287 || n = 12288 || n = 65279

/-- Greedy consumption of the optional `json` language tag after the
opening fence. -/
def skipJsonTag (l : List Char) : List Char :=
  if l.take 4 = ['j', 's', 'o', 'n'] then l.drop 4 else l

/-- Remove the trailing regex-whitespace run (absorbed by the greedy
whitespace star before the closing fence). -/
def dropTrailingRegexWs (l : List Char) : List Char :=
  (l.reverse.dropWhile isRegexWs).reverse

/-- Characters before the first triple-backtick fence, or `none` when no
fence follows. -/
def splitAtFence : List Char → Option (List Char)
  | '\x60' :: '\x60' :: '\x60' :: _ => some []
  | c :: rest => (splitAtFence rest).map (fun t => c :: t)
  | [] => none

/-- Scan for the first opening fence and extract the captured group of the
regex (see the discussion above). -/
def fencedMatchAux : List Char → Option (List Char)
  | '\x60' :: '\x60' :: '\x60' :: rest =>
    (splitAtFence (List.dropWhile isRegexWs (skipJsonTag rest))).map dropTrailingRegexWs
  | _ :: rest => fencedMatchAux rest
  | [] => none

/-- The captured group of `text.match` on the fenced-block regex in
`cleanAndParseJSON`, or `none` when the regex does not match. -/
def fencedMatch (text : String) : Option String :=
  (fencedMatchAux text.data).map String.mk

/-!
### Brace-span extraction and `cleanAndParseJSON`
-/

/-- First index of a character in a list (JavaScript `indexOf`, with `none`
for `-1`). -/
def idxOfAux (c : Char) : List Char → Option Nat
  | [] => none
  | x :: rest => if x = c then some 0 else (idxOfAux c rest).map (· + 1)

/-- Last index of a character in a list (JavaScript `lastIndexOf`, with
`none` for `-1`). -/
def lastIdxOf (c : Char) (l : List Char) : Option Nat :=
  (idxOfAux c l.reverse).map (fun i => l.length - 1 - i)

/-- JavaScript `String.prototype.substring`: indices are swapped when given
in the wrong order and clamped to the string length. -/
def jsSubstringList (l : List Char) (a b : Nat) : List Char :=
  (l.take (max a b)).drop (min a b)

/-- The substring from the first brace to the last brace inclusive
(`text.substring(start, end + 1)`), or `none` when either
`text.indexOf('\x7b')` or `text.lastIndexOf('\x7d')` is `-1`. -/
def braceSpan (text : String) : Option String :=
  match idxOfAux '\x7b' text.data, lastIdxOf '\x7d' text.data with
  | some s, some e => some (String.mk (jsSubstringList text.data s (e + 1)))
  | _, _ => none

/-- Errors are modelled as JavaScript error values restricted to the two
properties the code inspects: `status` and `message`. -/
structure GenError where
  status : Option Int
  message : Option String
deriving DecidableEq

/-- A plain `new Error(msg)`: no status code, just a message. -/
def mkError (msg : String) : GenError := { status := none, message := some msg }

/-- `cleanAndParseJSON` (src/services/geminiService.ts lines 8–35):
1. try a direct parse of the whole text;
2. on failure try the interior of the first backtick-fenced block;
3. on failure try the substring from the first brace to the last brace,
   failing with the extraction errors of the source otherwise. -/
def cleanAndParseJSON (text : String) : Except GenError Json :=
  match jsParse text with
  | some v => Except.ok v
  | none =>
    let fenceParsed : Option Json :=
      match fencedMatch text with
      | some inner => jsParse inner
      | none => none
    match fenceParsed with
    | some v => Except.ok v
    | none =>
      match braceSpan text with
      | some span =>
        match jsParse span with
        | some v => Except.ok v
        | none => Except.error (mkError "Failed to parse JSON from response")
      | none => Except.error (mkError "No JSON found in response")

/-- Stage 1 of the normalizer as an isolated function: direct parse. -/
def stageDirect (text : String) : Option Json := jsParse text

/-- Stage 2 of the normalizer as an isolated function: parse of the first
fenced block's interior. -/
def stageFenced (text : String) : Option Json :=
  match fencedMatch text with
  | some inner => jsParse inner
  | none => none

/-- Stage 3 of the normalizer as an isolated function: parse of the
brace span of the whole text. -/
def stageBrace (text : String) : Option Json :=
  match braceSpan text with
  | some span => jsParse span
  | none => none

/-- The two extraction-failure messages of `cleanAndParseJSON`
(the spec's `ExtractionError`). -/
def isExtractionErrorMsg (e : GenError) : Prop :=
  e.message = some "Failed to parse JSON from response" ∨
    e.message = some "No JSON found in response"

/-!
### The retrying call executor

`fetchLatestPlayerStats` (src/services/geminiService.ts lines 39–183).
The external backend collaborator (`ai.models.generateContent` with the
prompt built from the player) is modelled as a function from the attempt
index to the outcome of that attempt: either a response carrying the
optional `response.text` and the optional grounding source URL already
projected out of the candidate metadata, or a thrown error value.  The
timestamp produced by `new Date().toISOString()` is passed in as `nowISO`.
-/

/-- Outcome of one backend call. -/
inductive BackendOutcome where
  | ok (text : Option String) (sourceUrl : Option String)
  | err (e : GenError)

/-- JavaScript truthiness of the values reachable here: a `JSON.parse`
result (`NaN` cannot arise from `JSON.parse`) or `undefined` (`none`). -/
def truthyJson : Option Json → Bool
  | none => false
  | some Json.null => false
  | some (Json.bool b) => b
  | some (Json.num q) => q != 0
  | some (Json.str s) => s != ""
  | some (Json.arr _) => true
  | some (Json.obj _) => true

/-- JavaScript property access `data.k` on a parsed value: `undefined`
(`none`) unless the value is an object with the field; a duplicated key
takes its last occurrence. -/
def getField (v : Json) (k : String) : Option Json :=
  match v with
  | Json.obj fields => ((fields.filter (fun p => p.1 = k)).getLast?).map (fun p => p.2)
  | _ => none

/-- The JavaScript `a || b` default idiom, specialised to a field access on
the left and a defined default on the right. -/
def jsOr (v : Option Json) (dflt : Json) : Json :=
  match v with
  | some j => if truthyJson j then j else dflt
  | none => dflt

/-- The `stats` record literal returned on success (lines 137–155): only
`matches` and `recentMatches` carry `||` defaults, every other field is the
raw (possibly `undefined`) property of the parsed object. -/
structure StatsRecord where
  «matches» : Json
  innings : Option Json
  runs : Option Json
  ballsFaced : Option Json
  battingAverage : Option Json
  battingStrikeRate : Option Json
  highestScore : Option Json
  overs : Option Json
  wickets : Option Json
  runsConceded : Option Json
  economy : Option Json
  bowlingAverage : Option Json
  bowlingStrikeRate : Option Json
  bestBowling : Option Json
  recentMatches : Json
  summary : Option Json
  lastUpdated : String

/-- Build the `stats` record from the parsed object. -/
def buildStats (data : Json) (nowISO : String) : StatsRecord where
  «matches» := jsOr (getField data "matches") (Json.num 0)
  innings := getField data "innings"
  runs := getField data "runs"
  ballsFaced := getField data "ballsFaced"
  battingAverage := getField data "battingAverage"
  battingStrikeRate := getField data "battingStrikeRate"
  highestScore := getField data "highestScore"
  overs := getField data "overs"
  wickets := getField data "wickets"
  runsConceded := getField data "runsConceded"
  economy := getField data "economy"
  bowlingAverage := getField data "bowlingAverage"
  bowlingStrikeRate := getField data "bowlingStrikeRate"
  bestBowling := getField data "bestBowling"
  recentMatches := jsOr (getField data "recentMatches") (Json.arr [])
  summary := getField data "summary"
  lastUpdated := nowISO

/-- `data.role || 'Unknown'` (line 156). -/
def roleOf (data : Json) : Json := jsOr (getField data "role") (Json.str "Unknown")

/-- The value returned by a successful run. -/
structure FetchSuccess where
  stats : StatsRecord
  role : Json
  source : Option String

/-- The body of the `try` block for one attempt: empty or missing response
text throws `"No response from AI"` (the `if (!text)` falsiness check),
otherwise the normalizer runs and its result is shaped into the returned
record. -/
def attemptOnce (nowISO : String) (r : BackendOutcome) : Except GenError FetchSuccess :=
  match r with
  | BackendOutcome.err e => Except.error e
  | BackendOutcome.ok text sourceUrl =>
    match text with
    | none => Except.error (mkError "No response from AI")
    | some t =>
      if t = "" then Except.error (mkError "No response from AI")
      else
        match cleanAndParseJSON t with
        | Except.error e => Except.error e
        | Except.ok data =>
          Except.ok { stats := buildStats data nowISO, role := roleOf data, source := sourceUrl }

/-- Substring containment, as JavaScript `String.prototype.includes`:
`listStartsWith hay needle` is the prefix test used at each position. -/
def listStartsWith : List Char → List Char → Bool
  | _, [] => true
  | [], _ :: _ => false
  | h :: hs, n :: ns => h = n && listStartsWith hs ns

/-- `hay` contains `needle` as a contiguous run (JavaScript `includes`). -/
def listIncludes (needle : List Char) : List Char → Bool
  | [] => listStartsWith [] needle
  | c :: rest => listStartsWith (c :: rest) needle || listIncludes needle rest

/-- JavaScript `s.includes(pat)`. -/
def strIncludes (s pat : String) : Bool := listIncludes pat.data s.data

/-- The quota classification of lines 163–164: status `429`, or a message
(truthy, i.e. present and nonempty) containing one of the three markers. -/
def isQuotaError (e : GenError) : Bool :=
  e.status == some 429 ||
    (match e.message with
     | none => false
     | some m =>
       (m != "") &&
         (strIncludes m "429" || strIncludes m "RESOURCE_EXHAUSTED" || strIncludes m "quota"))

/-- Observable trace of one run of the executor: the settled result, the
backoff delays awaited (in order), and the number of backend calls issued. -/
structure RunTrace where
  result : Except GenError FetchSuccess
  waits : List Nat
  calls : Nat

/-- `maxAttempts` (line 115, identical in every variant). -/
def maxAttempts : Nat := 3

/-- The `while (attempts < maxAttempts)` loop.  For structural recursion
the loop counter is replaced by `remaining = maxAttempts - attempts`
(both are carried: `attempts` indexes the backend call).  The loop guard
`attempts < maxAttempts` is `remaining ≥ 1` (the `remaining + 1` pattern)
and the retry guard `attempts < maxAttempts - 1` is `remaining ≥ 2`.
Falling out of the loop produces the final `"Failed to fetch stats after
multiple attempts."` error of line 182. -/
def fetchLoop (nowISO : String) (backend : Nat → BackendOutcome)
    (attempts delay : Nat) : Nat → RunTrace
  | 0 => ⟨Except.error (mkError "Failed to fetch stats after multiple attempts."), [], 0⟩
  | Nat.succ remaining =>
    match attemptOnce nowISO (backend attempts) with
    | Except.ok s => ⟨Except.ok s, [], 1⟩
    | Except.error e =>
      if isQuotaError e ∧ 1 ≤ remaining then
        let next := fetchLoop nowISO backend (attempts + 1) (delay * 2) remaining
        ⟨next.result, delay :: next.waits, 1 + next.calls⟩
      else if isQuotaError e then
        ⟨Except.error
            (mkError "API Usage Limit Reached. Please wait a minute before trying again."),
          [], 1⟩
      else
        ⟨Except.error e, [], 1⟩

/-- Truthiness of `ai = apiKey ? new GoogleGenAI(\x7b apiKey \x7d) : null`
(lines 4–5): present iff the environment supplies a nonempty key. -/
def aiPresent (apiKey : Option String) : Bool :=
  match apiKey with
  | none => false
  | some k => k != ""

/-- `fetchLatestPlayerStats` of src/services/geminiService.ts (and of
part_000 / part_001, which differ only in prompt text): pre-flight key
check, then the retry loop with `maxAttempts = 3` and initial delay
`2000`. -/
def fetchLatestPlayerStats (apiKey : Option String) (nowISO : String)
    (backend : Nat → BackendOutcome) : RunTrace :=
  if aiPresent apiKey then fetchLoop nowISO backend 0 2000 maxAttempts
  else ⟨Except.error (mkError "API Key not found."), [], 0⟩

/-- `fetchLatestPlayerStats` of src/unnamed/part_002: identical loop and
bound, but the initial backoff delay is `3000` (line 117 of part_002). -/
def fetchLatestPlayerStatsVariant002 (apiKey : Option String) (nowISO : String)
    (backend : Nat → BackendOutcome) : RunTrace :=
  if aiPresent apiKey then fetchLoop nowISO backend 0 3000 maxAttempts
  else ⟨Except.error (mkError "API Key not found."), [], 0⟩

/-!
### Derived definitions used by the statements
-/

/-- The spec's description of the quota classification, written from the
spec's words for comparison with `isQuotaError`: the status code is the
numeric too-many-requests code, or the message text contains one of the
rate-limit/quota markers. -/
def quotaSpecPred (status : Option Int) (message : Option String) : Prop :=
  status = some 429 ∨
    ∃ m, message = some m ∧
      (strIncludes m "429" = true ∨ strIncludes m "RESOURCE_EXHAUSTED" = true ∨
        strIncludes m "quota" = true)

/-- The regex capture of a fenced block whose between-fence text is `mid`:
the optional `json` tag is consumed, then the leading whitespace run, and
the trailing whitespace run is stripped. -/
def fenceInterior (mid : String) : String :=
  String.mk (dropTrailingRegexWs (List.dropWhile isRegexWs (skipJsonTag mid.data)))

/-- The stats record of a successful trace, if any. -/
def okStats? (t : RunTrace) : Option StatsRecord :=
  match t.result with
  | Except.ok s => some s.stats
  | Except.error _ => none

/-!
### Helper lemmas
-/

lemma chain_direct (text : String) (v : Json) (h : jsParse text = some v) :
    cleanAndParseJSON text = Except.ok v := by
  simp [cleanAndParseJSON, h]

lemma chain_fenced (text : String) (v : Json) (hd : jsParse text = none)
    (hf : stageFenced text = some v) : cleanAndParseJSON text = Except.ok v := by
  unfold stageFenced at hf
  simp [cleanAndParseJSON, hd, hf]

lemma chain_brace (text : String) (v : Json) (hd : jsParse text = none)
    (hf : stageFenced text = none) (hb : stageBrace text = some v) :
    cleanAndParseJSON text = Except.ok v := by
  unfold stageFenced at hf
  rcases hsp : braceSpan text with _ | span
  · rw [show stageBrace text = none by unfold stageBrace; rw [hsp]] at hb
    exact absurd hb (by simp)
  · have hb2 : jsParse span = some v := by
      rw [show stageBrace text = jsParse span by unfold stageBrace; rw [hsp]] at hb
      exact hb
    simp [cleanAndParseJSON, hd, hf, hsp, hb2]

lemma chain_noJson (text : String) (hd : jsParse text = none)
    (hf : stageFenced text = none) (hb : braceSpan text = none) :
    cleanAndParseJSON text = Except.error (mkError "No JSON found in response") := by
  unfold stageFenced at hf
  simp [cleanAndParseJSON, hd, hf, hb]

lemma chain_failedParse (text span : String) (hd : jsParse text = none)
    (hf : stageFenced text = none) (hb : braceSpan text = some span)
    (hs : jsParse span = none) :
    cleanAndParseJSON text = Except.error (mkError "Failed to parse JSON from response") := by
  unfold stageFenced at hf
  simp [cleanAndParseJSON, hd, hf, hb, hs]

lemma chain_error (text : String) (hd : jsParse text = none)
    (hf : stageFenced text = none) (hb : stageBrace text = none) :
    ∃ e, cleanAndParseJSON text = Except.error e ∧ isExtractionErrorMsg e := by
  unfold stageBrace at hb
  rcases hsp : braceSpan text with _ | span
  · exact ⟨_, chain_noJson text hd hf hsp, Or.inr rfl⟩
  · rw [hsp] at hb
    exact ⟨_, chain_failedParse text span hd hf hsp hb, Or.inl rfl⟩

lemma cleanAndParseJSON_error_mk (t : String) (e : GenError)
    (h : cleanAndParseJSON t = Except.error e) :
    e = mkError "Failed to parse JSON from response" ∨
      e = mkError "No JSON found in response" := by
  rcases hd : jsParse t with _ | v
  · rcases hf : stageFenced t with _ | v2
    · rcases hsp : braceSpan t with _ | span
      · rw [chain_noJson t hd hf hsp] at h
        exact Or.inr (Except.error.inj h).symm
      · rcases hs : jsParse span with _ | v3
        · rw [chain_failedParse t span hd hf hsp hs] at h
          exact Or.inl (Except.error.inj h).symm
        · have hb : stageBrace t = some v3 := by
            unfold stageBrace; rw [hsp]; exact hs
          rw [chain_brace t v3 hd hf hb] at h
          exact absurd h (by simp)
    · rw [chain_fenced t v2 hd hf] at h
      exact absurd h (by simp)
  · rw [chain_direct t v hd] at h
    exact absurd h (by simp)

lemma cleanAndParseJSON_error_shape (t : String) (e : GenError)
    (h : cleanAndParseJSON t = Except.error e) : isExtractionErrorMsg e := by
  rcases cleanAndParseJSON_error_mk t e h with rfl | rfl
  · exact Or.inl rfl
  · exact Or.inr rfl

/-!
### Claim theorems
-/

/-- Claim C2: when every backend call fails with a quota/rate-limit
error, the executor performs exactly `maxAttempts = 3` backend calls —
never more than the configured maximum — and fails with the dedicated
usage-limit message (the spec's `QuotaExceededError`). -/
theorem claim_C2_quota_exhaustion (k nowISO : String) (backend : Nat → BackendOutcome)
    (hk : k ≠ "")
    (hq : ∀ n, ∃ e, backend n = BackendOutcome.err e ∧ isQuotaError e = true) :
    (fetchLatestPlayerStats (some k) nowISO backend).calls ≤ maxAttempts ∧
      (fetchLatestPlayerStats (some k) nowISO backend).calls = 3 ∧
      (fetchLatestPlayerStats (some k) nowISO backend).result =
        Except.error
          (mkError "API Usage Limit Reached. Please wait a minute before trying again.") := by
  obtain ⟨e0, h0, q0⟩ := hq 0
  obtain ⟨e1, h1, q1⟩ := hq 1
  obtain ⟨e2, h2, q2⟩ := hq 2
  have hrun : fetchLatestPlayerStats (some k) nowISO backend =
      ⟨Except.error
          (mkError "API Usage Limit Reached. Please wait a minute before trying again."),
        [2000, 4000], 3⟩ := by
    simp [fetchLatestPlayerStats, aiPresent, hk, maxAttempts, fetchLoop, attemptOnce,
      h0, h1, h2, q0, q1, q2]
  rw [hrun]
  exact ⟨by simp [maxAttempts], rfl, rfl⟩

/-- Witness for C2 at a backend that always reports status 429. -/
theorem claim_C2_witness :
    (fetchLatestPlayerStats (some "key") "ts"
        (fun _ => BackendOutcome.err ⟨some 429, none⟩)).calls ≤ maxAttempts ∧
      (fetchLatestPlayerStats (some "key") "ts"
        (fun _ => BackendOutcome.err ⟨some 429, none⟩)).calls = 3 ∧
      (fetchLatestPlayerStats (some "key") "ts"
        (fun _ => BackendOutcome.err ⟨some 429, none⟩)).result =
        Except.error
          (mkError "API Usage Limit Reached. Please wait a minute before trying again.") :=
  claim_C2_quota_exhaustion "key" "ts" _ (by decide)
    (fun _ => ⟨⟨some 429, none⟩, rfl, rfl⟩)

/-- Claim C5: a backend failure not classified as quota is propagated
unchanged after a single backend call, with no backoff wait and no retry. -/
theorem claim_C5_nonquota_immediate (k nowISO : String) (backend : Nat → BackendOutcome)
    (e : GenError) (hk : k ≠ "")
    (h0 : backend 0 = BackendOutcome.err e) (hnq : isQuotaError e = false) :
    fetchLatestPlayerStats (some k) nowISO backend = ⟨Except.error e, [], 1⟩ := by
  simp [fetchLatestPlayerStats, aiPresent, hk, maxAttempts, fetchLoop, attemptOnce, h0, hnq]

/-- Witness for C5 at a backend that fails once with a 500-status error. -/
theorem claim_C5_witness :
    fetchLatestPlayerStats (some "key") "ts"
        (fun _ => BackendOutcome.err ⟨some 500, some "Internal error"⟩) =
      ⟨Except.error ⟨some 500, some "Internal error"⟩, [], 1⟩ :=
  claim_C5_nonquota_immediate "key" "ts" _ ⟨some 500, some "Internal error"⟩
    (by decide) rfl rfl

/-- Claim C6: when the backend call succeeds but the returned text cannot
be parsed by any normalizer stage, the executor fails with the normalizer's
extraction error after a single backend call — a parse failure is never
retried. -/
theorem claim_C6_extraction_not_retried (k nowISO t : String) (src : Option String)
    (backend : Nat → BackendOutcome) (e : GenError)
    (hk : k ≠ "")
    (h0 : backend 0 = BackendOutcome.ok (some t) src)
    (ht : t ≠ "")
    (he : cleanAndParseJSON t = Except.error e) :
    fetchLatestPlayerStats (some k) nowISO backend = ⟨Except.error e, [], 1⟩ ∧
      isExtractionErrorMsg e := by
  have hq : isQuotaError e = false := by
    rcases cleanAndParseJSON_error_mk t e he with rfl | rfl <;> rfl
  refine ⟨?_, cleanAndParseJSON_error_shape t e he⟩
  simp [fetchLatestPlayerStats, aiPresent, hk, maxAttempts, fetchLoop, attemptOnce,
    h0, ht, he, hq]

/-- Witness for C6 at a backend that returns unparseable text. -/
theorem claim_C6_witness :
    fetchLatestPlayerStats (some "key") "ts"
        (fun _ => BackendOutcome.ok (some "gibberish") (some "u")) =
      ⟨Except.error (mkError "No JSON found in response"), [], 1⟩ ∧
      isExtractionErrorMsg (mkError "No JSON found in response") :=
  claim_C6_extraction_not_retried "key" "ts" "gibberish" (some "u") _
    (mkError "No JSON found in response") (by decide) rfl (by decide) rfl

/-- Claim C7: when the environment supplies no (truthy) credential, the
executor fails with `"API Key not found."` (the spec's
`ConfigurationError`) before issuing any backend call — zero calls, zero
waits — so the failure is never retried. -/
theorem claim_C7_configuration_preflight (apiKey : Option String) (nowISO : String)
    (backend : Nat → BackendOutcome) (h : aiPresent apiKey = false) :
    fetchLatestPlayerStats apiKey nowISO backend =
      ⟨Except.error (mkError "API Key not found."), [], 0⟩ := by
  simp [fetchLatestPlayerStats, h]

/-- Witness for C7 at an absent key and an always-succeeding backend. -/
theorem claim_C7_witness :
    fetchLatestPlayerStats none "ts" (fun _ => BackendOutcome.ok (some "\x7b\x7d") none) =
      ⟨Except.error (mkError "API Key not found."), [], 0⟩ :=
  claim_C7_configuration_preflight none "ts" _ rfl

/-- Claim C9: the quota classification is a pure predicate of the error's
status and message, holding exactly when the status is 429 or the message
text contains one of the markers 429, RESOURCE_EXHAUSTED, quota. -/
theorem claim_C9_quota_classification (e : GenError) :
    isQuotaError e = true ↔ quotaSpecPred e.status e.message := by
  obtain ⟨st, msg⟩ := e
  cases msg with
  | none => simp [isQuotaError, quotaSpecPred]
  | some m =>
    by_cases hm : m = ""
    · subst hm
      simp [isQuotaError, quotaSpecPred]
      intro h
      simp [show strIncludes "" "429" = false from rfl,
        show strIncludes "" "RESOURCE_EXHAUSTED" = false from rfl,
        show strIncludes "" "quota" = false from rfl] at h
    · simp [isQuotaError, quotaSpecPred, hm]
      tauto

/-- Counterexample for claim C3: the repository also contains the
`part_002` revision of `fetchLatestPlayerStats` (cited by the claim), whose
initial backoff unit is 3000ms, not 2000ms: under two quota failures
followed by success its waits are 3000ms then 6000ms. -/
theorem claim_C3_counterexample :
    fetchLatestPlayerStatsVariant002 (some "key") "ts"
        (fun n => if n < 2 then BackendOutcome.err ⟨some 429, none⟩
                  else BackendOutcome.ok (some "\x7b\x7d") none) =
      ⟨Except.ok
          ⟨⟨Json.num 0, none, none, none, none, none, none, none, none, none, none,
              none, none, none, Json.arr [], none, "ts"⟩,
            Json.str "Unknown", none⟩,
        [3000, 6000], 3⟩ ∧
      ([3000, 6000] : List Nat) ≠ [2000, 4000] :=
  ⟨rfl, by decide⟩

/-- Claim C3 as amended: under two quota failures then a success, the
executor returns the successful result after three calls, and the waited
backoff delays strictly double from the module's initial unit — 2000ms then
4000ms in src/services/geminiService.ts, 3000ms then 6000ms in the
src/unnamed/part_002 revision. -/
theorem claim_C3_backoff_doubling (k nowISO : String) (backend : Nat → BackendOutcome)
    (e0 e1 : GenError) (s : FetchSuccess)
    (hk : k ≠ "")
    (h0 : backend 0 = BackendOutcome.err e0) (q0 : isQuotaError e0 = true)
    (h1 : backend 1 = BackendOutcome.err e1) (q1 : isQuotaError e1 = true)
    (h2 : attemptOnce nowISO (backend 2) = Except.ok s) :
    fetchLatestPlayerStats (some k) nowISO backend = ⟨Except.ok s, [2000, 4000], 3⟩ ∧
      fetchLatestPlayerStatsVariant002 (some k) nowISO backend =
        ⟨Except.ok s, [3000, 6000], 3⟩ := by
  have a0 : attemptOnce nowISO (backend 0) = Except.error e0 := by rw [h0]; rfl
  have a1 : attemptOnce nowISO (backend 1) = Except.error e1 := by rw [h1]; rfl
  constructor
  · simp [fetchLatestPlayerStats, aiPresent, hk, maxAttempts, fetchLoop, a0, a1, q0, q1, h2]
  · simp [fetchLatestPlayerStatsVariant002, aiPresent, hk, maxAttempts, fetchLoop,
      a0, a1, q0, q1, h2]

/-- Witness for the amended C3 at a backend failing twice with status 429
then returning an empty JSON object. -/
theorem claim_C3_witness :
    fetchLatestPlayerStats (some "key") "ts"
        (fun n => if n < 2 then BackendOutcome.err ⟨some 429, none⟩
                  else BackendOutcome.ok (some "\x7b\x7d") none) =
      ⟨Except.ok
          ⟨⟨Json.num 0, none, none, none, none, none, none, none, none, none, none,
              none, none, none, Json.arr [], none, "ts"⟩,
            Json.str "Unknown", none⟩,
        [2000, 4000], 3⟩ ∧
      fetchLatestPlayerStatsVariant002 (some "key") "ts"
        (fun n => if n < 2 then BackendOutcome.err ⟨some 429, none⟩
                  else BackendOutcome.ok (some "\x7b\x7d") none) =
      ⟨Except.ok
          ⟨⟨Json.num 0, none, none, none, none, none, none, none, none, none, none,
              none, none, none, Json.arr [], none, "ts"⟩,
            Json.str "Unknown", none⟩,
        [3000, 6000], 3⟩ :=
  claim_C3_backoff_doubling "key" "ts" _ ⟨some 429, none⟩ ⟨some 429, none⟩ _
    (by decide) rfl rfl rfl rfl rfl

/-- Counterexample for claim C4: a parsed object missing the numeric
`innings` field yields a returned record whose `innings` is `undefined`
(`none`), not a documented default. -/
theorem claim_C4_counterexample :
    Option.map StatsRecord.innings
        (okStats? (fetchLatestPlayerStats (some "key") "ts"
          (fun _ => BackendOutcome.ok (some "\x7b\"matches\": 2\x7d") none))) =
      some none := rfl

/-- Claim C4 as amended: only `matches` (default 0), `recentMatches`
(default empty list) and `role` (default the sentinel string) are defaulted
when absent, null, or otherwise falsy; every other field of the returned
record is the raw property of the parsed object and is `undefined` when
absent. -/
theorem claim_C4_field_defaulting (data : Json) (nowISO : String) :
    ((getField data "matches" = none ∨ getField data "matches" = some Json.null) →
      (buildStats data nowISO).«matches» = Json.num 0) ∧
    ((getField data "recentMatches" = none ∨
        getField data "recentMatches" = some Json.null) →
      (buildStats data nowISO).recentMatches = Json.arr []) ∧
    ((getField data "role" = none ∨ getField data "role" = some Json.null) →
      roleOf data = Json.str "Unknown") ∧
    (buildStats data nowISO).innings = getField data "innings" ∧
    (buildStats data nowISO).runs = getField data "runs" ∧
    (buildStats data nowISO).ballsFaced = getField data "ballsFaced" ∧
    (buildStats data nowISO).battingAverage = getField data "battingAverage" ∧
    (buildStats data nowISO).battingStrikeRate = getField data "battingStrikeRate" ∧
    (buildStats data nowISO).highestScore = getField data "highestScore" ∧
    (buildStats data nowISO).overs = getField data "overs" ∧
    (buildStats data nowISO).wickets = getField data "wickets" ∧
    (buildStats data nowISO).runsConceded = getField data "runsConceded" ∧
    (buildStats data nowISO).economy = getField data "economy" ∧
    (buildStats data nowISO).bowlingAverage = getField data "bowlingAverage" ∧
    (buildStats data nowISO).bowlingStrikeRate = getField data "bowlingStrikeRate" ∧
    (buildStats data nowISO).bestBowling = getField data "bestBowling" ∧
    (buildStats data nowISO).summary = getField data "summary" ∧
    (buildStats data nowISO).lastUpdated = nowISO := by
  refine ⟨?_, ?_, ?_, rfl, rfl, rfl, rfl, rfl, rfl, rfl, rfl, rfl, rfl, rfl, rfl, rfl,
    rfl, rfl⟩
  · rintro (h | h) <;> simp [buildStats, jsOr, h, truthyJson]
  · rintro (h | h) <;> simp [buildStats, jsOr, h, truthyJson]
  · rintro (h | h) <;> simp [roleOf, jsOr, h, truthyJson]

/-- Witness for the amended C4 at the empty parsed object. -/
theorem claim_C4_witness :
    (buildStats (Json.obj []) "ts").«matches» = Json.num 0 ∧
      (buildStats (Json.obj []) "ts").recentMatches = Json.arr [] ∧
      roleOf (Json.obj []) = Json.str "Unknown" ∧
      (buildStats (Json.obj []) "ts").innings = none :=
  ⟨(claim_C4_field_defaulting (Json.obj []) "ts").1 (Or.inl rfl),
    (claim_C4_field_defaulting (Json.obj []) "ts").2.1 (Or.inl rfl),
    (claim_C4_field_defaulting (Json.obj []) "ts").2.2.1 (Or.inl rfl),
    ((claim_C4_field_defaulting (Json.obj []) "ts").2.2.2.1).trans rfl⟩

/-- Claim C1: the normalizer applies the ordered fallback chain — direct
parse first; the first fenced block's interior only if that fails; the
brace span only if that also fails; and when every stage fails it fails
with an extraction error.  In particular, when the direct parse fails and
the fenced content parses, the result is the fenced content's parsed
object. -/
theorem claim_C1_ordered_fallback (text : String) :
    (∀ v, stageDirect text = some v → cleanAndParseJSON text = Except.ok v) ∧
    (stageDirect text = none →
      ∀ v, stageFenced text = some v → cleanAndParseJSON text = Except.ok v) ∧
    (stageDirect text = none → stageFenced text = none →
      ∀ v, stageBrace text = some v → cleanAndParseJSON text = Except.ok v) ∧
    (stageDirect text = none → stageFenced text = none → stageBrace text = none →
      ∃ e, cleanAndParseJSON text = Except.error e ∧ isExtractionErrorMsg e) :=
  ⟨fun v h => chain_direct text v h,
    fun hd v hf => chain_fenced text v hd hf,
    fun hd hf v hb => chain_brace text v hd hf hb,
    fun hd hf hb => chain_error text hd hf hb⟩

/-- Witness for C1: a JSON object fenced with a tagged block amid
commentary is recovered through stage 2. -/
theorem claim_C1_witness :
    cleanAndParseJSON "Here:\n```json\n\x7b\"runs\": 41\x7d\n```\nBye." =
      Except.ok (Json.obj [("runs", Json.num 41)]) :=
  (claim_C1_ordered_fallback "Here:\n```json\n\x7b\"runs\": 41\x7d\n```\nBye.").2.1 rfl
    (Json.obj [("runs", Json.num 41)]) rfl

/-!
### Lemmas on the fenced-block scan and the brace span
-/

lemma fencedMatchAux_cons_ne (c : Char) (l : List Char) (hc : c ≠ '\x60') :
    fencedMatchAux (c :: l) = fencedMatchAux l := by
  rw [fencedMatchAux.eq_def]
  split
  · rename_i rest heq
    exact absurd (List.cons.inj heq).1 hc
  · rename_i x rest heq
    obtain ⟨rfl, rfl⟩ := List.cons.inj heq
    rfl
  · rename_i heq
    exact absurd heq (by simp)

lemma splitAtFence_cons_ne (c : Char) (l : List Char) (hc : c ≠ '\x60') :
    splitAtFence (c :: l) = (splitAtFence l).map (fun t => c :: t) := by
  rw [splitAtFence.eq_def]
  split
  · rename_i rest heq
    exact absurd (List.cons.inj heq).1 hc
  · rename_i x rest heq
    obtain ⟨rfl, rfl⟩ := List.cons.inj heq
    rfl
  · rename_i heq
    exact absurd heq (by simp)

lemma fencedMatchAux_scan (pre l : List Char) (hp : '\x60' ∉ pre) :
    fencedMatchAux (pre ++ l) = fencedMatchAux l := by
  induction pre with
  | nil => rfl
  | cons c pre' ih =>
    obtain ⟨hne, hp'⟩ : '\x60' ≠ c ∧ '\x60' ∉ pre' := by
      simpa [List.mem_cons, not_or] using hp
    rw [List.cons_append, fencedMatchAux_cons_ne c _ (Ne.symm hne), ih hp']

lemma splitAtFence_sandwich (m rest : List Char) (hm : '\x60' ∉ m) :
    splitAtFence (m ++ '\x60' :: '\x60' :: '\x60' :: rest) = some m := by
  induction m with
  | nil => rfl
  | cons c m' ih =>
    obtain ⟨hne, hm'⟩ : '\x60' ≠ c ∧ '\x60' ∉ m' := by
      simpa [List.mem_cons, not_or] using hm
    rw [List.cons_append, splitAtFence_cons_ne c _ (Ne.symm hne), ih hm']
    rfl

lemma skipJsonTag_append_tick (m r : List Char) :
    skipJsonTag (m ++ '\x60' :: r) = skipJsonTag m ++ '\x60' :: r := by
  match m with
  | [] => simp [skipJsonTag]
  | [a] => simp [skipJsonTag]
  | [a, b] => simp [skipJsonTag]
  | [a, b, c] => simp [skipJsonTag]
  | a :: b :: c :: d :: m' =>
    show skipJsonTag (a :: b :: c :: d :: (m' ++ '\x60' :: r)) = _
    unfold skipJsonTag
    by_cases h : [a, b, c, d] = ['j', 's', 'o', 'n']
    · simp [h]
    · simp [h]

lemma dropWhile_append_tick (p : Char → Bool) (m r : List Char) (hp : p '\x60' = false) :
    List.dropWhile p (m ++ '\x60' :: r) = List.dropWhile p m ++ '\x60' :: r := by
  induction m with
  | nil => simp [List.dropWhile_cons, hp]
  | cons c m' ih =>
    by_cases h : p c
    · simp [List.dropWhile_cons, h, ih]
    · simp [List.dropWhile_cons, h]

lemma tick_not_mem_skipJsonTag (m : List Char) (hm : '\x60' ∉ m) :
    '\x60' ∉ skipJsonTag m := by
  unfold skipJsonTag
  split
  · exact fun h => hm (List.mem_of_mem_drop h)
  · exact hm

lemma tick_not_mem_dropWhile (p : Char → Bool) (m : List Char) (hm : '\x60' ∉ m) :
    '\x60' ∉ List.dropWhile p m :=
  fun h => hm ((List.dropWhile_sublist (l := m) (p := p)).mem h)

lemma fencedMatch_first_block (pre mid post : String)
    (hp : '\x60' ∉ pre.data) (hm : '\x60' ∉ mid.data) :
    fencedMatch (pre ++ "```" ++ mid ++ "```" ++ post) = some (fenceInterior mid) := by
  obtain ⟨lp⟩ := pre
  obtain ⟨lm⟩ := mid
  obtain ⟨lo⟩ := post
  show (fencedMatchAux ((((lp ++ ['\x60', '\x60', '\x60']) ++ lm) ++
      ['\x60', '\x60', '\x60']) ++ lo)).map String.mk = _
  have hassoc : (((lp ++ ['\x60', '\x60', '\x60']) ++ lm) ++
      ['\x60', '\x60', '\x60']) ++ lo =
      lp ++ '\x60' :: '\x60' :: '\x60' :: (lm ++ '\x60' :: '\x60' :: '\x60' :: lo) := by
    simp
  rw [hassoc, fencedMatchAux_scan lp _ hp]
  show (Option.map dropTrailingRegexWs (splitAtFence (List.dropWhile isRegexWs
      (skipJsonTag (lm ++ '\x60' :: '\x60' :: '\x60' :: lo))))).map String.mk = _
  rw [skipJsonTag_append_tick lm ('\x60' :: '\x60' :: lo),
    dropWhile_append_tick isRegexWs (skipJsonTag lm) ('\x60' :: '\x60' :: lo) rfl,
    splitAtFence_sandwich _ lo
      (tick_not_mem_dropWhile isRegexWs (skipJsonTag lm) (tick_not_mem_skipJsonTag lm hm))]
  rfl

lemma idxOfAux_append_cons (c : Char) (a b : List Char) (ha : c ∉ a) :
    idxOfAux c (a ++ c :: b) = some a.length := by
  induction a with
  | nil => simp [idxOfAux]
  | cons x a' ih =>
    obtain ⟨hne, ha'⟩ : c ≠ x ∧ c ∉ a' := by
      simpa [List.mem_cons, not_or] using ha
    simp [idxOfAux, Ne.symm hne, ih ha']

lemma braceSpan_sandwich (lp core lo : List Char)
    (h1 : '\x7b' ∉ lp) (h2 : '\x7d' ∉ lo) :
    braceSpan ⟨lp ++ ('\x7b' :: core ++ ['\x7d']) ++ lo⟩ =
      some ⟨'\x7b' :: core ++ ['\x7d']⟩ := by
  have hidx : idxOfAux '\x7b' (lp ++ ('\x7b' :: core ++ ['\x7d']) ++ lo) =
      some lp.length := by
    have hsh : lp ++ ('\x7b' :: core ++ ['\x7d']) ++ lo =
        lp ++ '\x7b' :: (core ++ ['\x7d'] ++ lo) := by simp
    rw [hsh, idxOfAux_append_cons '\x7b' lp _ h1]
  have hlast : lastIdxOf '\x7d' (lp ++ ('\x7b' :: core ++ ['\x7d']) ++ lo) =
      some (lp.length + core.length + 1) := by
    unfold lastIdxOf
    have hrev : (lp ++ ('\x7b' :: core ++ ['\x7d']) ++ lo).reverse =
        lo.reverse ++ '\x7d' :: (core.reverse ++ '\x7b' :: lp.reverse) := by
      simp
    have h2r : '\x7d' ∉ lo.reverse := by simpa using h2
    rw [hrev, idxOfAux_append_cons '\x7d' lo.reverse _ h2r]
    simp [List.length_append, List.length_reverse]
    omega
  unfold braceSpan
  simp only [String.data]
  rw [hidx, hlast]
  have hred : (match some lp.length, some (lp.length + core.length + 1) with
      | some s, some e =>
        some (String.mk (jsSubstringList (lp ++ ('\x7b' :: core ++ ['\x7d']) ++ lo) s (e + 1)))
      | _, _ => none : Option String) =
      some (String.mk (jsSubstringList (lp ++ ('\x7b' :: core ++ ['\x7d']) ++ lo) lp.length
        (lp.length + core.length + 1 + 1))) := rfl
  have hspan : jsSubstringList (lp ++ ('\x7b' :: core ++ ['\x7d']) ++ lo) lp.length
      (lp.length + core.length + 1 + 1) = '\x7b' :: core ++ ['\x7d'] := by
    unfold jsSubstringList
    rw [Nat.min_eq_left (by omega), Nat.max_eq_right (by omega)]
    have hlen : lp.length + core.length + 1 + 1 = (lp ++ ('\x7b' :: core ++ ['\x7d'])).length := by
      simp
      omega
    rw [hlen, List.take_left (lp ++ ('\x7b' :: core ++ ['\x7d'])) lo]
    rw [List.drop_left lp ('\x7b' :: core ++ ['\x7d'])]
  rw [hred, hspan]

/-- Counterexample for claim C8: the input `5` contains no brace pair at
all, yet the normalizer does not fail with an extraction error — the direct
parse stage already succeeds with the number 5. -/
theorem claim_C8_counterexample :
    cleanAndParseJSON "5" = Except.ok (Json.num 5) ∧ braceSpan "5" = none :=
  ⟨rfl, rfl⟩

/-- Claim C8 as amended: when the earlier stages fail, the brace-span stage
extracts and parses exactly the substring from the first brace to the last
brace inclusive (commentary before and after, no fencing); and an input
with no brace pair on which the direct and fenced stages also fail is
rejected with the `"No JSON found in response"` extraction error. -/
theorem claim_C8_brace_span_extraction :
    (∀ pre post : String, ∀ core : List Char,
      jsParse (pre ++ String.mk ('\x7b' :: core ++ ['\x7d']) ++ post) = none →
      fencedMatch (pre ++ String.mk ('\x7b' :: core ++ ['\x7d']) ++ post) = none →
      '\x7b' ∉ pre.data → '\x7d' ∉ post.data →
      braceSpan (pre ++ String.mk ('\x7b' :: core ++ ['\x7d']) ++ post) =
          some (String.mk ('\x7b' :: core ++ ['\x7d'])) ∧
        ∀ v, jsParse (String.mk ('\x7b' :: core ++ ['\x7d'])) = some v →
          cleanAndParseJSON (pre ++ String.mk ('\x7b' :: core ++ ['\x7d']) ++ post) =
            Except.ok v) ∧
    (∀ text : String,
      (idxOfAux '\x7b' text.data = none ∨ lastIdxOf '\x7d' text.data = none) →
      jsParse text = none → stageFenced text = none →
      cleanAndParseJSON text = Except.error (mkError "No JSON found in response")) := by
  constructor
  · intro pre post core hd hf h1 h2
    obtain ⟨lp⟩ := pre
    obtain ⟨lo⟩ := post
    have hbs : braceSpan (String.mk lp ++ String.mk ('\x7b' :: core ++ ['\x7d']) ++
        String.mk lo) = some (String.mk ('\x7b' :: core ++ ['\x7d'])) :=
      braceSpan_sandwich lp core lo h1 h2
    refine ⟨hbs, ?_⟩
    intro v hv
    have hsf : stageFenced (String.mk lp ++ String.mk ('\x7b' :: core ++ ['\x7d']) ++
        String.mk lo) = none := by
      unfold stageFenced
      rw [hf]
    have hsb : stageBrace (String.mk lp ++ String.mk ('\x7b' :: core ++ ['\x7d']) ++
        String.mk lo) = some v := by
      unfold stageBrace
      rw [hbs]
      exact hv
    exact chain_brace _ v hd hsf hsb
  · intro text hno hd hf
    have hbs : braceSpan text = none := by
      unfold braceSpan
      rcases hno with h | h
      · rw [h]
      · rcases hi : idxOfAux '\x7b' text.data with _ | i
        · rfl
        · rw [h]
    exact chain_noJson text hd hf hbs

/-- Witness for the amended C8: a brace span amid plain commentary is
recovered, and a brace-free, fence-free, unparseable input yields the
extraction error. -/
theorem claim_C8_witness :
    cleanAndParseJSON ("Note: " ++ String.mk ('\x7b' :: "\"a\": 1".data ++ ['\x7d']) ++
        " done.") = Except.ok (Json.obj [("a", Json.num 1)]) ∧
      cleanAndParseJSON "no json here" =
        Except.error (mkError "No JSON found in response") :=
  ⟨(claim_C8_brace_span_extraction.1 "Note: " " done." "\"a\": 1".data rfl rfl
        (by decide) (by decide)).2 (Json.obj [("a", Json.num 1)]) rfl,
    claim_C8_brace_span_extraction.2 "no json here" (Or.inl rfl) rfl rfl⟩

/-- Claim C10: the fenced stage considers only the first backtick-fenced
block (the regex is non-greedy), a first block whose interior does not
parse makes the stage fail, and the brace-span stage then operates on the
entire original text, so a later parseable region can determine the
result. -/
theorem claim_C10_first_fence_then_whole_text :
    (∀ pre mid post : String, '\x60' ∉ pre.data → '\x60' ∉ mid.data →
      fencedMatch (pre ++ "```" ++ mid ++ "```" ++ post) = some (fenceInterior mid)) ∧
    (∀ text inner : String, fencedMatch text = some inner → jsParse inner = none →
      stageFenced text = none) ∧
    (∀ text : String, jsParse text = none → stageFenced text = none →
      ∀ v, stageBrace text = some v → cleanAndParseJSON text = Except.ok v) := by
  refine ⟨fencedMatch_first_block, ?_, ?_⟩
  · intro text inner hfm hin
    unfold stageFenced
    rw [hfm]
    exact hin
  · intro text hd hf v hb
    exact chain_brace text v hd hf hb

/-- Witness for C10: the first fenced block is captured even when a second
fenced block follows, and with a first block that does not parse the brace
span of the whole text decides the result. -/
theorem claim_C10_witness :
    fencedMatch ("Intro " ++ "```" ++ "json\n\x7b\"a\": 1\x7d\n" ++ "```" ++
        " tail ```json \x7b\"b\": 2\x7d ```") = some "\x7b\"a\": 1\x7d" ∧
      cleanAndParseJSON "```nope``` \x7b\"ok\": true\x7d" =
        Except.ok (Json.obj [("ok", Json.bool true)]) :=
  ⟨(claim_C10_first_fence_then_whole_text.1 "Intro " "json\n\x7b\"a\": 1\x7d\n"
        " tail ```json \x7b\"b\": 2\x7d ```" (by decide) (by decide)).trans (by rfl),
    claim_C10_first_fence_then_whole_text.2.2 "```nope``` \x7b\"ok\": true\x7d" rfl
      (claim_C10_first_fence_then_whole_text.2.1 "```nope``` \x7b\"ok\": true\x7d" "nope"
        rfl rfl)
      (Json.obj [("ok", Json.bool true)]) rfl⟩
